import Mathlib

/-!
# Verification of the NIMA inference model (`src/utils/nima/inference_model.py`)

A shallow embedding of the core of the aesthetic-scoring inference pipeline:
score statistics (`get_mean_score`, `get_std_score`), the cached weight
download (`download_file`), the MobileNetV2 block construction, the inverted
residual block, the aesthetic head, and the `InferenceModel` construction
entry points.  Numeric arrays of ten probabilities are modelled as functions
`Fin 10 → ℚ`; the square root and the exponential of the head are taken over
`ℝ`.  Effectful code (file system, network) is modelled by explicit state
passing.
-/

/-- A ten-bucket score distribution: the numpy array of ten floats produced by
the aesthetic head, modelled as a function from bucket position to a rational.
Bucket positions are zero-based; bucket index `i + 1` is the weight used by the
statistics. -/
def ScoreDist : Type := Fin 10 → ℚ

/-- The bucket weights `np.arange(1, 11)`: position `i` carries weight `i + 1`
(bucket 1 has weight 1, bucket 10 has weight 10). -/
def buckets (i : Fin 10) : ℚ := (i : ℚ) + 1

/-- `get_mean_score(score)`: `mu = (buckets * score).sum()` with
`buckets = np.arange(1, 11)`. -/
def get_mean_score (score : ScoreDist) : ℚ :=
  ∑ i, buckets i * score i

/-- The radicand of `get_std_score`: `np.sum(((si - mean) ** 2) * scores)`
with `si = np.arange(1, 11)` and `mean = get_mean_score(scores)`. -/
def std_radicand (scores : ScoreDist) : ℚ :=
  ∑ i, (buckets i - get_mean_score scores) ^ 2 * scores i

/-- `get_std_score(scores)`: `np.sqrt` of the weighted squared deviation from
the mean. -/
noncomputable def get_std_score (scores : ScoreDist) : ℝ :=
  Real.sqrt ((std_radicand scores : ℚ) : ℝ)

/-- The delta distribution: probability `1` at bucket index `k` (one-based),
`0` elsewhere. -/
def deltaDist (k : ℕ) : ScoreDist := fun i => if (i : ℕ) + 1 = k then 1 else 0

/-- The uniform distribution: probability `0.1` at every bucket. -/
def uniformDist : ScoreDist := fun _ => 1 / 10

/-- **C1.** `get_mean_score` returns the bucket-index-weighted sum
`Σ_i i · p[i]` with one-based bucket weights, and on a delta distribution with
probability 1 at bucket `k` it returns exactly `k`, for every `k` in `1..10`. -/
theorem get_mean_score_spec :
    (∀ p : ScoreDist, get_mean_score p = ∑ i : Fin 10, ((i : ℚ) + 1) * p i) ∧
    (∀ k : ℕ, 1 ≤ k → k ≤ 10 → get_mean_score (deltaDist k) = k) := by
  refine ⟨fun p => rfl, fun k h1 h2 => ?_⟩
  interval_cases k <;>
    norm_num [get_mean_score, buckets, deltaDist, Fin.sum_univ_succ]

/-- Concrete instance of the delta-distribution clause of `get_mean_score_spec`
at bucket 7. -/
theorem get_mean_score_spec_witness : get_mean_score (deltaDist 7) = 7 :=
  get_mean_score_spec.2 7 (by norm_num) (by norm_num)

/-- **C2.** `get_std_score` returns the square root of the weighted squared
deviation from the mean; it is 0 on every delta distribution, and on the
uniform distribution it is `√(33/4)`, the population standard deviation of
`{1, ..., 10}`, within `10⁻³` of `2.8723`. -/
theorem get_std_score_spec :
    (∀ p : ScoreDist,
      get_std_score p
        = Real.sqrt ((∑ i : Fin 10, (((i : ℚ) + 1) - get_mean_score p) ^ 2 * p i : ℚ) : ℝ)) ∧
    (∀ k : ℕ, 1 ≤ k → k ≤ 10 → get_std_score (deltaDist k) = 0) ∧
    get_std_score uniformDist = Real.sqrt (33 / 4) ∧
    |get_std_score uniformDist - 2.8723| < 1 / 1000 := by
  have hrad : std_radicand uniformDist = 33 / 4 := by
    norm_num [std_radicand, get_mean_score, buckets, uniformDist, Fin.sum_univ_succ]
  have huni : get_std_score uniformDist = Real.sqrt ((33 : ℝ) / 4) := by
    unfold get_std_score
    rw [hrad]
    norm_num
  refine ⟨fun p => rfl, fun k h1 h2 => ?_, huni, ?_⟩
  · have h0 : std_radicand (deltaDist k) = 0 := by
      interval_cases k <;>
        norm_num [std_radicand, get_mean_score, buckets, deltaDist, Fin.sum_univ_succ]
    unfold get_std_score
    rw [h0]
    norm_num
  · rw [huni]
    have hub : Real.sqrt ((33 : ℝ) / 4) < 2.8723 := by
      rw [Real.sqrt_lt' (by norm_num)]
      norm_num
    have hlb : (2.8722 : ℝ) < Real.sqrt ((33 : ℝ) / 4) := by
      rw [Real.lt_sqrt (by norm_num)]
      norm_num
    rw [abs_sub_lt_iff]
    constructor <;> nlinarith

/-- Concrete instance of the delta-distribution clause of `get_std_score_spec`
at bucket 3. -/
theorem get_std_score_spec_witness : get_std_score (deltaDist 3) = 0 :=
  get_std_score_spec.2.1 3 (by norm_num) (by norm_num)

/-- **C3.** For every score distribution with non-negative entries summing
to 1, the derived summary satisfies `mean ∈ [1, 10]` and `std ≥ 0`; both are
plain functions of the distribution alone. -/
theorem score_summary_spec (p : ScoreDist) (hpos : ∀ i, 0 ≤ p i)
    (hsum : ∑ i, p i = 1) :
    1 ≤ get_mean_score p ∧ get_mean_score p ≤ 10 ∧ 0 ≤ get_std_score p := by
  have hb_lo : ∀ i : Fin 10, (1 : ℚ) * p i ≤ buckets i * p i := by
    intro i
    apply mul_le_mul_of_nonneg_right _ (hpos i)
    have : (0 : ℚ) ≤ (i : ℚ) := by positivity
    simp only [buckets]
    linarith
  have hb_hi : ∀ i : Fin 10, buckets i * p i ≤ (10 : ℚ) * p i := by
    intro i
    apply mul_le_mul_of_nonneg_right _ (hpos i)
    have : ((i : ℕ) : ℚ) ≤ 9 := by
      have := i.isLt
      exact_mod_cast Nat.le_of_lt_succ this
    simp only [buckets]
    linarith
  refine ⟨?_, ?_, Real.sqrt_nonneg _⟩
  · calc (1 : ℚ) = ∑ i, (1 : ℚ) * p i := by simp [hsum]
    _ ≤ ∑ i, buckets i * p i := Finset.sum_le_sum fun i _ => hb_lo i
    _ = get_mean_score p := rfl
  · calc get_mean_score p = ∑ i, buckets i * p i := rfl
    _ ≤ ∑ i, (10 : ℚ) * p i := Finset.sum_le_sum fun i _ => hb_hi i
    _ = 10 := by rw [← Finset.mul_sum, hsum, mul_one]

/-- Concrete instance of `score_summary_spec` at the uniform distribution. -/
theorem score_summary_spec_witness :
    1 ≤ get_mean_score uniformDist ∧ get_mean_score uniformDist ≤ 10 ∧
      0 ≤ get_std_score uniformDist :=
  score_summary_spec uniformDist (fun i => by norm_num [uniformDist])
    (by norm_num [uniformDist, Fin.sum_univ_succ])

/-- A feature map flowing through the network, modelled as an indexed family
of real values; addition is pointwise, matching the elementwise tensor sum of
the residual shortcut. -/
def Tensor : Type := ℕ → ℝ

/-- An `InvertedResidual` block after `__init__` has run: the stored stride,
channel counts, the `use_res_connect` flag computed in the constructor, and
the projection path `self.conv` (the expand / depthwise / project stack),
abstracted as a function on feature maps. -/
structure InvertedResidual where
  stride : ℕ
  inp : ℕ
  oup : ℕ
  expand_ratio : ℕ
  use_res_connect : Bool
  conv : Tensor → Tensor

/-- `InvertedResidual.__init__(inp, oup, stride, expand_ratio)`: asserts
`stride in [1, 2]` (modelled as `none` on assertion failure) and sets
`use_res_connect = (stride == 1 and inp == oup)`. -/
def InvertedResidual.make (inp oup stride expand_ratio : ℕ)
    (conv : Tensor → Tensor) : Option InvertedResidual :=
  if stride = 1 ∨ stride = 2 then
    some ⟨stride, inp, oup, expand_ratio, stride == 1 && inp == oup, conv⟩
  else
    none

/-- `InvertedResidual.forward(x)`: `x + self.conv(x)` when
`self.use_res_connect`, else `self.conv(x)`. -/
def InvertedResidual.forward (b : InvertedResidual) (x : Tensor) : Tensor :=
  if b.use_res_connect then fun i => x i + b.conv x i else b.conv x

/-- **C4.** For a block built with parameters `(inp, oup, stride, t)`: when
`stride = 1` and `inp = oup` the forward output is the input plus the
projection-path result elementwise; otherwise it is the projection-path
result unmodified. -/
theorem invertedResidual_forward_spec (inp oup stride t : ℕ)
    (conv : Tensor → Tensor) (b : InvertedResidual)
    (hb : InvertedResidual.make inp oup stride t conv = some b) (x : Tensor) :
    (stride = 1 ∧ inp = oup → ∀ i, b.forward x i = x i + b.conv x i) ∧
    (¬(stride = 1 ∧ inp = oup) → b.forward x = b.conv x) := by
  unfold InvertedResidual.make at hb
  by_cases hs : stride = 1 ∨ stride = 2
  · rw [if_pos hs] at hb
    injection hb with hb
    subst hb
    constructor
    · rintro ⟨h1, h2⟩ i
      simp [InvertedResidual.forward, h1, h2]
    · intro hcond
      have : ¬(stride == 1 && inp == oup) = true := by
        simpa [Bool.and_eq_true, beq_iff_eq] using hcond
      simp [InvertedResidual.forward, this]
  · rw [if_neg hs] at hb
    exact absurd hb (by simp)

/-- Concrete instance of `invertedResidual_forward_spec`: a stride-1 block
with equal channel counts and identity projection path doubles a constant
input. -/
theorem invertedResidual_forward_spec_witness :
    InvertedResidual.forward ⟨1, 16, 16, 1, true, id⟩ (fun _ => (1 : ℝ)) 0
      = 1 + 1 :=
  (invertedResidual_forward_spec 16 16 1 1 id ⟨1, 16, 16, 1, true, id⟩ rfl
    (fun _ => (1 : ℝ))).1 ⟨rfl, rfl⟩ 0

/-- The parameters with which `MobileNetV2.__init__` instantiates one
`InvertedResidual` block: `(input_channel, output_channel, stride, t)`. -/
structure BlockSpec where
  inp : ℕ
  oup : ℕ
  stride : ℕ
  expand_ratio : ℕ
deriving DecidableEq, Repr

/-- `self.interverted_residual_setting`: the stage table `(t, c, n, s)`. -/
def interverted_residual_setting : List (ℕ × ℕ × ℕ × ℕ) :=
  [(1, 16, 1, 1), (6, 24, 2, 2), (6, 32, 3, 2), (6, 64, 4, 2),
   (6, 96, 3, 1), (6, 160, 3, 2), (6, 320, 1, 1)]

/-- The double loop of `MobileNetV2.__init__` that appends the inverted
residual blocks (with width multiplier 1, so `output_channel = c`): for each
stage `(t, c, n, s)` and each `i in range(n)`, append a block with stride `s`
when `i == 0` and stride 1 otherwise, then set
`input_channel = output_channel`.  The state is the pair
(blocks so far, current `input_channel`). -/
def buildBlocks (table : List (ℕ × ℕ × ℕ × ℕ)) (input_channel : ℕ) :
    List BlockSpec × ℕ :=
  table.foldl
    (fun st stage =>
      (List.range stage.2.2.1).foldl
        (fun st2 i =>
          if i = 0 then
            (st2.1 ++ [⟨st2.2, stage.2.1, stage.2.2.2, stage.1⟩], stage.2.1)
          else
            (st2.1 ++ [⟨st2.2, stage.2.1, 1, stage.1⟩], stage.2.1))
        st)
    ([], input_channel)

/-- The block parameters `MobileNetV2.__init__` produces from the stage table
starting from the stem's `input_channel = int(32 * 1.) = 32`. -/
def mobileNetBlocks : List BlockSpec :=
  (buildBlocks interverted_residual_setting 32).1

/-- Stated from the claim: for one stage `(t, c, n, s)` append `n` blocks, the
first with stride `s`, subsequent ones with stride 1, each block taking the
previous block's output channel count as input. -/
def claimStage (t c s input_channel : ℕ) : ℕ → List BlockSpec
  | 0 => []
  | Nat.succ m => ⟨input_channel, c, s, t⟩ :: claimStage t c 1 c m

/-- Stated from the claim: expand the stage table stage by stage, carrying the
final output channel count of a stage into the next. -/
def claimBlocks : List (ℕ × ℕ × ℕ × ℕ) → ℕ → List BlockSpec
  | [], _ => []
  | (t, c, n, s) :: rest, input_channel =>
      claimStage t c s input_channel n ++ claimBlocks rest c

/-- Every adjacent pair of blocks is channel-chained: the later block's input
channel count equals the earlier block's output channel count. -/
def chainOk : List BlockSpec → Bool
  | a :: b :: rest => a.oup == b.inp && chainOk (b :: rest)
  | _ => true

/-- **C5.** The blocks `MobileNetV2.__init__` builds (width multiplier 1) are
exactly the stage-table expansion described by the spec — per stage
`(t, c, n, s)`: `n` blocks, the first with stride `s` and the rest with
stride 1 — and consecutive blocks are channel-chained. -/
theorem mobileNetV2_blocks_spec :
    mobileNetBlocks = claimBlocks interverted_residual_setting 32 ∧
    chainOk mobileNetBlocks = true := by
  constructor <;> rfl

/-- `nn.ReLU` on the 1280-length pooled embedding: elementwise `max(x, 0)`. -/
def relu1280 (x : Fin 1280 → ℝ) : Fin 1280 → ℝ := fun i => max (x i) 0

/-- `nn.Dropout(p=0.75)` in evaluation mode: the identity (dropout is active
only under the training flag; the inference engine fixes `eval()`). -/
def dropout_eval (x : Fin 1280 → ℝ) : Fin 1280 → ℝ := x

/-- `nn.Linear(1280, 10)` with weight matrix `w` and bias `b`. -/
def linear_1280_10 (w : Fin 10 → Fin 1280 → ℝ) (b : Fin 10 → ℝ)
    (x : Fin 1280 → ℝ) : Fin 10 → ℝ :=
  fun j => (∑ i, w j i * x i) + b j

/-- `nn.Softmax(dim=1)` over the 10 outputs of the single image in the
batch. -/
noncomputable def softmax10 (z : Fin 10 → ℝ) : Fin 10 → ℝ :=
  fun j => Real.exp (z j) / ∑ k, Real.exp (z k)

/-- `self.head` of `NIMA`: `nn.Sequential(ReLU, Dropout(0.75), Linear(1280,
10), Softmax(dim=1))`, applied in evaluation mode. -/
noncomputable def nima_head (w : Fin 10 → Fin 1280 → ℝ) (b : Fin 10 → ℝ)
    (x : Fin 1280 → ℝ) : Fin 10 → ℝ :=
  softmax10 (linear_1280_10 w b (dropout_eval (relu1280 x)))

/-- **C6.** The aesthetic head is exactly the ReLU → Dropout(0.75, a no-op
outside training) → Linear(1280, 10) → Softmax pipeline, and every
distribution it produces has all 10 values in `[0, 1]` and summing to 1. -/
theorem nima_head_spec (w : Fin 10 → Fin 1280 → ℝ) (b : Fin 10 → ℝ)
    (x : Fin 1280 → ℝ) :
    nima_head w b x = softmax10 (linear_1280_10 w b (dropout_eval (relu1280 x))) ∧
    (∀ j, 0 ≤ nima_head w b x j ∧ nima_head w b x j ≤ 1) ∧
    ∑ j, nima_head w b x j = 1 := by
  set z := linear_1280_10 w b (dropout_eval (relu1280 x)) with hz
  have hpos : (0 : ℝ) < ∑ k, Real.exp (z k) :=
    Finset.sum_pos (fun k _ => Real.exp_pos (z k)) Finset.univ_nonempty
  refine ⟨rfl, fun j => ⟨?_, ?_⟩, ?_⟩
  · exact div_nonneg (Real.exp_pos (z j)).le hpos.le
  · apply div_le_one_of_le₀ _ hpos.le
    exact Finset.single_le_sum (fun k _ => (Real.exp_pos (z k)).le)
      (Finset.mem_univ j)
  · show ∑ j, Real.exp (z j) / ∑ k, Real.exp (z k) = 1
    rw [← Finset.sum_div]
    exact div_self hpos.ne'

/-- An HTTP response as seen by `requests.get(url, stream=True)`: a status
code and the streamed body (the concatenation of the chunks that
`iter_content` yields). -/
structure Response where
  status : ℕ
  body : List ℕ

/-- The world `download_file` acts on: the local file system (path to file
content) and a counter of transport-layer invocations. -/
structure WebState where
  files : String → Option (List ℕ)
  netCalls : ℕ

/-- `download_file(url, local_filename)`: if the file exists return its path
unchanged; otherwise perform one `requests.get`, write the streamed body to
the file, and return the path.  The response status is never inspected. -/
def download_file (net : String → Response) (url local_filename : String)
    (s : WebState) : String × WebState :=
  match s.files local_filename with
  | some _ => (local_filename, s)
  | none =>
      (local_filename,
        { files := fun p =>
            if p = local_filename then some (net url).body else s.files p,
          netCalls := s.netCalls + 1 })

/-- **C7.** When the local file already exists, `download_file` returns the
path with the world untouched (no network access, file content unchanged, no
integrity check), and a second call with the same existing path is equally a
no-op, so the transport layer is invoked at most once (here: not at all)
across the two calls. -/
theorem download_file_cached_spec (net1 net2 : String → Response)
    (url1 url2 lf : String) (s : WebState) (c : List ℕ)
    (h : s.files lf = some c) :
    download_file net1 url1 lf s = (lf, s) ∧
    download_file net2 url2 lf (download_file net1 url1 lf s).2 = (lf, s) ∧
    (download_file net2 url2 lf (download_file net1 url1 lf s).2).2.netCalls
      = s.netCalls := by
  have h1 : download_file net1 url1 lf s = (lf, s) := by
    unfold download_file
    rw [h]
  refine ⟨h1, ?_, ?_⟩
  · rw [h1]
    unfold download_file
    rw [h]
  · rw [h1]
    unfold download_file
    rw [h]

/-- Concrete instance of `download_file_cached_spec`: a one-file world whose
cached weight file is returned untouched by two consecutive downloads. -/
theorem download_file_cached_spec_witness :
    download_file (fun _ => ⟨200, [1]⟩) "u1" "w.pth"
        ⟨fun p => if p = "w.pth" then some [9, 9] else none, 0⟩
      = ("w.pth", ⟨fun p => if p = "w.pth" then some [9, 9] else none, 0⟩) :=
  (download_file_cached_spec (fun _ => ⟨200, [1]⟩) (fun _ => ⟨200, [2]⟩)
    "u1" "u2" "w.pth"
    ⟨fun p => if p = "w.pth" then some [9, 9] else none, 0⟩ [9, 9]
    (by simp)).1

/-- **C9.** When the local file is missing, `download_file` performs exactly
one transport call, writes the response body to the file and returns the path
as success whatever the response status is (the status is never inspected —
`net` is arbitrary here and may return status 404); every subsequent call
with the same path then treats the written file as a valid cache and skips
the network. -/
theorem download_file_ignores_status_spec (net : String → Response)
    (url lf : String) (s : WebState) (h : s.files lf = none) :
    (download_file net url lf s).1 = lf ∧
    (download_file net url lf s).2.files lf = some (net url).body ∧
    (download_file net url lf s).2.netCalls = s.netCalls + 1 ∧
    (∀ net2 url2,
      download_file net2 url2 lf (download_file net url lf s).2
        = (lf, (download_file net url lf s).2)) := by
  have hd : download_file net url lf s
      = (lf,
          { files := fun p => if p = lf then some (net url).body else s.files p,
            netCalls := s.netCalls + 1 }) := by
    unfold download_file
    rw [h]
  refine ⟨by rw [hd], by rw [hd]; simp, by rw [hd], fun net2 url2 => ?_⟩
  rw [hd]
  unfold download_file
  simp

/-- Concrete instance of `download_file_ignores_status_spec`: a 404 response
body is cached as if it were the weight file. -/
theorem download_file_ignores_status_spec_witness :
    (download_file (fun _ => ⟨404, [7]⟩) "u" "w.pth" ⟨fun _ => none, 0⟩).2.files
        "w.pth" = some [7] ∧
    (download_file (fun _ => ⟨404, [7]⟩) "u" "w.pth" ⟨fun _ => none, 0⟩).2.netCalls
        = 1 :=
  ⟨(download_file_ignores_status_spec (fun _ => ⟨404, [7]⟩) "u" "w.pth"
      ⟨fun _ => none, 0⟩ rfl).2.1,
   (download_file_ignores_status_spec (fun _ => ⟨404, [7]⟩) "u" "w.pth"
      ⟨fun _ => none, 0⟩ rfl).2.2.1⟩

/-- The device type strings `torch.device` accepts (optionally followed by a
colon and an index). -/
def valid_device_types : List String :=
  ["cpu", "cuda", "mps", "xpu", "mkldnn", "opengl", "opencl", "ideep", "hip",
   "ve", "fpga", "maia", "xla", "lazy", "vulkan", "meta", "hpu", "mtia",
   "privateuseone"]

/-- Models the external `torch.device(device)` constructor used by
`InferenceModel.__init__`: a device string is resolved when the component
before an optional colon is a known device type, and rejected (a runtime
error, modelled as `none`) otherwise. -/
def torch_device (d : String) : Option String :=
  if String.mk (d.data.takeWhile fun c => c ≠ ':') ∈ valid_device_types then
    some d
  else
    none

/-- The weight-file path that is both `create_model`'s local constant and the
default of `__init__`'s `path_to_model` parameter. -/
def default_model_path : String := "utils/nima/model/pretrain-model.pth"

/-- Outcomes of engine construction. -/
inductive ConstructError where
  | invalidDevice
  | loadFailure
deriving DecidableEq, Repr

/-- A constructed inference engine: the resolved device and the path the
weights were loaded from. -/
structure Engine where
  device : String
  model_path : String
deriving DecidableEq, Repr

/-- `InferenceModel.__init__(device, path_to_model=default_model_path)`:
resolves `torch.device(device)` first, then loads the weight file from the
file system `fs`.  Failure at either step is fatal. -/
def InferenceModel.construct (fs : String → Option (List ℕ)) (device : String)
    (path_to_model : String := default_model_path) :
    Except ConstructError Engine :=
  match torch_device device with
  | none => Except.error ConstructError.invalidDevice
  | some d =>
      match fs path_to_model with
      | none => Except.error ConstructError.loadFailure
      | some _ => Except.ok ⟨d, path_to_model⟩

/-- `InferenceModel.create_model()`: binds the weight-file path to the single
positional argument of `cls(...)`, which is the `device` parameter;
`path_to_model` keeps its default. -/
def InferenceModel.create_model (fs : String → Option (List ℕ)) :
    Except ConstructError Engine :=
  InferenceModel.construct fs default_model_path

/-- **C8.** `create_model` passes the weight-file path where the device
identifier is expected (`path_to_model` keeps its default), the path does not
resolve as a device, and so for every file system — even one holding the
weight file — `create_model` fails at device resolution and never constructs
an engine on a caller-chosen device. -/
theorem create_model_spec (fs : String → Option (List ℕ)) :
    InferenceModel.create_model fs
      = InferenceModel.construct fs default_model_path default_model_path ∧
    torch_device default_model_path = none ∧
    InferenceModel.create_model fs = Except.error ConstructError.invalidDevice := by
  have hdev : torch_device default_model_path = none := by decide
  refine ⟨rfl, hdev, ?_⟩
  unfold InferenceModel.create_model InferenceModel.construct
  rw [hdev]

/-- The result of `MobileNetV2.__init__`: the instantiated inverted residual
blocks and the kernel size of the final `nn.AvgPool2d`. -/
structure MobileNetV2Model where
  blocks : List InvertedResidual
  poolKernel : ℕ

/-- `MobileNetV2.__init__(input_size)` (width multiplier 1): asserts
`input_size % 32 == 0`, instantiates the 17 blocks from the stage table (each
block constructor asserting its stride is 1 or 2), and appends
`nn.AvgPool2d(input_size // 32)`.  The blocks' projection paths are supplied
by `convs`. -/
def MobileNetV2.construct (convs : BlockSpec → Tensor → Tensor)
    (input_size : ℕ) : Option MobileNetV2Model :=
  if input_size % 32 = 0 then
    match mobileNetBlocks.mapM
        (fun bs =>
          InvertedResidual.make bs.inp bs.oup bs.stride bs.expand_ratio
            (convs bs)) with
    | none => none
    | some bl => some ⟨bl, input_size / 32⟩
  else
    none

/-- Instantiating the stage-table blocks never hits the stride assertion: the
traversal succeeds and yields one block per table entry. -/
theorem mobileNetBlocks_make_all (convs : BlockSpec → Tensor → Tensor) :
    mobileNetBlocks.mapM
        (fun bs =>
          InvertedResidual.make bs.inp bs.oup bs.stride bs.expand_ratio
            (convs bs))
      = some (mobileNetBlocks.map
          (fun bs =>
            ⟨bs.stride, bs.inp, bs.oup, bs.expand_ratio,
              bs.stride == 1 && bs.inp == bs.oup, convs bs⟩)) := rfl

/-- Every stride in the built block list is 1 or 2. -/
theorem mobileNetBlocks_strides :
    ∀ bs ∈ mobileNetBlocks, bs.stride = 1 ∨ bs.stride = 2 := by decide

/-- **C10 counterexample.** `input_size = 0` is a multiple of 32, so the
assertion passes and construction succeeds, yet the final average-pooling
kernel `0 // 32 = 0` is not a positive integer. -/
theorem mobileNetV2_zero_input_size :
    0 % 32 = 0 ∧
    Option.map MobileNetV2Model.poolKernel
        (MobileNetV2.construct (fun _ => id) 0) = some 0 :=
  ⟨rfl, rfl⟩

/-- **C10 (amended).** Construction fails the assertion for every
`input_size` that is not a multiple of 32; for every positive multiple of 32
it succeeds, the final average-pooling kernel is the positive integer
`input_size // 32` (7 at the default 224), and every stride passed to
`InvertedResidual` from the stage table satisfies that block's assertion that
the stride is 1 or 2. -/
theorem mobileNetV2_construction_spec (convs : BlockSpec → Tensor → Tensor)
    (input_size : ℕ) :
    (input_size % 32 ≠ 0 → MobileNetV2.construct convs input_size = none) ∧
    (input_size % 32 = 0 → 0 < input_size →
      ∃ m, MobileNetV2.construct convs input_size = some m ∧
        m.poolKernel = input_size / 32 ∧ 0 < m.poolKernel ∧
        ∀ b ∈ m.blocks, b.stride = 1 ∨ b.stride = 2) ∧
    (input_size = 224 →
      ∃ m, MobileNetV2.construct convs input_size = some m ∧
        m.poolKernel = 7) := by
  have hbuild : ∀ h32 : input_size % 32 = 0,
      MobileNetV2.construct convs input_size
        = some ⟨mobileNetBlocks.map
            (fun bs =>
              ⟨bs.stride, bs.inp, bs.oup, bs.expand_ratio,
                bs.stride == 1 && bs.inp == bs.oup, convs bs⟩),
            input_size / 32⟩ := by
    intro h32
    unfold MobileNetV2.construct
    rw [if_pos h32, mobileNetBlocks_make_all]
  refine ⟨fun h => ?_, fun h32 hpos => ?_, fun h224 => ?_⟩
  · unfold MobileNetV2.construct
    rw [if_neg h]
  · refine ⟨_, hbuild h32, rfl, ?_, ?_⟩
    · show 0 < input_size / 32
      omega
    intro b hb
    rw [List.mem_map] at hb
    obtain ⟨bs, hbs, rfl⟩ := hb
    exact mobileNetBlocks_strides bs hbs
  · subst h224
    exact ⟨_, hbuild rfl, rfl⟩

/-- Concrete instance of `mobileNetV2_construction_spec` at the default input
size 224 with identity projection paths. -/
theorem mobileNetV2_construction_spec_witness :
    ∃ m, MobileNetV2.construct (fun _ => id) 224 = some m ∧
      m.poolKernel = 224 / 32 ∧ 0 < m.poolKernel ∧
      ∀ b ∈ m.blocks, b.stride = 1 ∨ b.stride = 2 :=
  (mobileNetV2_construction_spec (fun _ => id) 224).2.1 rfl (by norm_num)
